import Mathlib

/-!
Verification development for the `git-remote-ipgrv` helper
(`src/main.rs`, `src/helper/mod.rs`).

The helper's core (`src/helper/mod.rs`) is embedded shallowly:

* machine bytes are `Nat` values below 256, byte buffers are `List Nat`;
* `git2::Oid` is its byte sequence, `List Nat`;
* the external collaborators (libgit2 object database, the local ipfs
  daemon reached through `ipfs_api::Shell`, the `ipld_git` parser, the
  `multihash` decoder) are parameters bundled in the `Ext` structure:
  each is an arbitrary function returning `Except` exactly where the
  Rust API returns `Result`;
* Rust `?`-propagation becomes explicit `match`es, a Rust panic
  (`unimplemented!()`, `unwrap`, `expect`) becomes the distinguished
  result `RRes.panic`, which is different from returning an error;
* the observable effects of one process run (object-database reads,
  `dag_put` submissions, `ipld_git::parse_object` calls, and the
  LMDB-backed Tracker contents) are threaded through the `St` record so
  that frame and trace properties can be stated.
-/

namespace Ipgrv

/-- A native object identifier (`git2::Oid`): its raw hash bytes. -/
abbrev Oid := List Nat

/-- The helper's error enum (`enum Error` in `src/helper/mod.rs`).
Payloads of the wrapped foreign error types are abstracted to `Nat`
codes, except `env::VarError` which is modelled structurally. -/
inductive VarError where
  | NotPresent : VarError
  | NotUnicode : VarError
deriving DecidableEq

inductive Error where
  | ApiError : Nat → Error
  | EnvVarError : VarError → Error
  | Git2Error : Nat → Error
  | IoError : Nat → Error
  | LmdbError : Nat → Error
  | IpldGitError : Nat → Error
  | MultihashError : Nat → Error
deriving DecidableEq

/-- Result of running a piece of helper code: a value, an `Err` returned
to the caller, or a process abort (`panic!` / `unimplemented!()` /
`unwrap` on `None`). -/
inductive RRes (α : Type) where
  | ok : α → RRes α
  | err : Error → RRes α
  | panic : RRes α
deriving DecidableEq

/-- Model of the `ipld_git` CID as it appears in `link.cid.hash`. -/
structure Cid where
  hash : List Nat
deriving DecidableEq

/-- A link of a parsed `ipld_git` node (`node.links()` element). -/
structure Link where
  cid : Cid
deriving DecidableEq

/-- git2 object kinds (`git2::ObjectType`). -/
inductive ObjType where
  | Any : ObjType
  | Commit : ObjType
  | Tree : ObjType
  | Blob : ObjType
  | Tag : ObjType
deriving DecidableEq

/-- External collaborators of `PushHelper`, as arbitrary functions.

* `odb` — obtaining the object-database handle, `self.repo.odb()`;
* `odbRead` — `odb.read(oid)`, yielding the object's kind and raw data;
* `newLocalShell` — `ipfs_api::Shell::new_local()`;
* `dagPut` — `api.dag_put(bytes, input_enc, format)`, returning the CID
  string the daemon reports (the helper discards it);
* `parseObject` — `ipld_git::parse_object(bytes)` composed with
  `node.links()`: the links of the parsed node;
* `multihashDecode` — `multihash::decode(hash)` projected to its
  `digest` field;
* `oidFromBytes` — `git2::Oid::from_bytes(digest)`. -/
structure Ext where
  odb : Except Nat Unit
  odbRead : Oid → Except Nat (ObjType × List Nat)
  newLocalShell : Except Nat Unit
  dagPut : List Nat → String → String → Except Nat String
  parseObject : List Nat → Except Nat (List Link)
  multihashDecode : List Nat → Except Nat (List Nat)
  oidFromBytes : List Nat → Except Nat Oid

/-- Observable state of one helper run: the trace of object-database
reads, the trace of payloads handed to `dag_put`, the trace of payloads
handed to `ipld_git::parse_object`, and the persistent Tracker ledger
(its two LMDB relations, `id → content address` and `ref name → id`). -/
structure St where
  reads : List Oid
  submitted : List (List Nat)
  parsed : List (List Nat)
  trackerObjects : List (Oid × List Nat)
  trackerRefs : List (String × Oid)
deriving DecidableEq

/-- The empty starting state. -/
def St0 : St :=
  { reads := [], submitted := [], parsed := [],
    trackerObjects := [], trackerRefs := [] }

/-- Model of `format!("{}", n).as_bytes()`: the ASCII bytes of the decimal
representation of `n`. -/
def asciiDecimal (n : Nat) : List Nat :=
  (Nat.toDigits 10 n).map Char.toNat

/-- The kind match of `push_object` (`src/helper/mod.rs:163-169`): the
byte token each known kind contributes (the trailing byte 32 is the
space inside the Rust byte literal); `none` is the
`_ => unimplemented!()` arm. -/
def kindToken : ObjType → Option (List Nat)
  | .Blob => some [98, 108, 111, 98, 32]              -- b"blob "
  | .Tree => some [116, 114, 101, 101, 32]            -- b"tree "
  | .Commit => some [99, 111, 109, 109, 105, 116, 32] -- b"commit "
  | .Tag => some [116, 97, 103, 32]                   -- b"tag "
  | .Any => none                                      -- unimplemented!()

/-- Embedding of `PushHelper::push_object` (`src/helper/mod.rs:156-178`): read the
object from the odb, frame it as `<kind> <len>\x00<raw>`, `dag_put` the
framed bytes, and return them.  The `none` arm of the kind token is the
`_ => unimplemented!()` panic. -/
def pushObject (E : Ext) (st : St) (oid : Oid) : RRes (List Nat) × St :=
  match E.odb with
  | .error e => (.err (.Git2Error e), st)
  | .ok _ =>
    match E.odbRead oid with
    | .error e => (.err (.Git2Error e), st)
    | .ok (kind, raw) =>
      let st1 : St := { st with reads := st.reads ++ [oid] }
      match kindToken kind with
      | none => (.panic, st1)
      | some t =>
        let full_obj : List Nat := t ++ asciiDecimal raw.length ++ [0] ++ raw
        match E.newLocalShell with
        | .error e => (.err (.ApiError e), st1)
        | .ok _ =>
          let st2 : St := { st1 with submitted := st1.submitted ++ [full_obj] }
          match E.dagPut full_obj "raw" "git" with
          | .error e => (.err (.ApiError e), st2)
          | .ok _ => (.ok full_obj, st2)

/-- The loop body of `PushHelper::enqueue_links`
(`src/helper/mod.rs:187-191`): decode each link's multihash, turn the
digest into an `Oid`, and push it at the back of the queue.  On a decode
failure the links pushed so far stay in the queue and the error is
returned. -/
def enqueueLinksGo (E : Ext) : List Oid → List Link → Except Error Unit × List Oid
  | q, [] => (.ok (), q)
  | q, l :: ls =>
    match E.multihashDecode l.cid.hash with
    | .error e => (.error (.MultihashError e), q)
    | .ok digest =>
      match E.oidFromBytes digest with
      | .error e => (.error (.Git2Error e), q)
      | .ok oid => enqueueLinksGo E (q ++ [oid]) ls

/-- Embedding of `PushHelper::enqueue_links` (`src/helper/mod.rs:180-193`): parse the
object bytes with `ipld_git::parse_object` and enqueue every link's
embedded hash.  The bytes handed to the parser are recorded in the
`parsed` trace. -/
def enqueueLinks (E : Ext) (st : St) (q : List Oid) (objBytes : List Nat) :
    Except Error Unit × List Oid × St :=
  let st1 : St := { st with parsed := st.parsed ++ [objBytes] }
  match E.parseObject objBytes with
  | .error e => (.error (.IpldGitError e), q, st1)
  | .ok links =>
    let r := enqueueLinksGo E q links
    (r.1, r.2, st1)

/-- Outcome of the queue-draining loop under a fuel bound: either the
loop finished with result `r`, or the fuel ran out while the queue still
held `q` (the loop is still running). -/
inductive QOut where
  | done : RRes Unit → QOut
  | fuelOut : List Oid → QOut
deriving DecidableEq

/-- Whether the fuel ran out before the loop finished. -/
def QOut.isFuelOut : QOut → Bool
  | .done _ => false
  | .fuelOut _ => true

/-- Embedding of `PushHelper::push_queue` (`src/helper/mod.rs:137-152`), the
`while let Some(oid) = self.queue.pop_front()` loop, indexed by fuel.
Each iteration pops the front identifier, pushes the object
(`push_object`), and enqueues its links (`enqueue_links`); any error
aborts the loop at once.  Nothing in the body consults the Tracker —
the `// TODO: check tracker for src_hash` comment in the source is not
implemented. -/
def pushQueueFuel (E : Ext) : Nat → List Oid → St → QOut × St
  | 0, q, st => (.fuelOut q, st)
  | _ + 1, [], st => (.done (.ok ()), st)
  | n + 1, oid :: rest, st =>
    match pushObject E st oid with
    | (.ok objBytes, st1) =>
      match enqueueLinks E st1 rest objBytes with
      | (.ok _, q2, st2) => pushQueueFuel E n q2 st2
      | (.error e, _, st2) => (.done (.err e), st2)
    | (.err e, st1) => (.done (.err e), st1)
    | (.panic, st1) => (.done .panic, st1)

/-- Embedding of `PushHelper::push` (`src/helper/mod.rs:131-134`): seed the queue
with the starting hash and drain it. -/
def PushHelper.push (E : Ext) (fuel : Nat) (hash : Oid) (st : St) : QOut × St :=
  pushQueueFuel E fuel [hash] st

/-- Model of `git2::ReferenceType`. -/
inductive RefType where
  | Oid : RefType
  | Symbolic : RefType
deriving DecidableEq

/-- A `git2::Reference` as the helper observes it: `kind()` (`none` =
unknown), `target()` (`none` = not a direct reference), and
`symbolic_target()` (`none` = absent or not valid UTF-8).  A branch
name read through `name()` is likewise `Option String`, `none` meaning
the name is not valid UTF-8. -/
structure Reference where
  kind : Option RefType
  target : Option Oid
  symbolicTarget : Option String
deriving DecidableEq

/-- The `git2::Repository` surface used by `Helper`: `branches(Local)`
(an iterator of per-branch results, each carrying the branch's
`name()`), `find_reference`, and `Reference::resolve`. -/
structure Repo where
  branches : Except Nat (List (Except Nat (Option String)))
  findReference : String → Except Nat Reference
  resolve : Reference → Except Nat Reference

/-- One lowercase hex digit. -/
def hexChar (n : Nat) : Char :=
  if n < 10 then Char.ofNat (48 + n) else Char.ofNat (87 + n)

/-- Model of `format!("{}", oid)`: the lowercase hex rendering of the oid's
bytes (`git2::Oid`'s `Display`). -/
def oidToString (oid : Oid) : String :=
  String.mk (oid.foldr (fun b acc => hexChar (b / 16) :: hexChar (b % 16) :: acc) [])

/-- The branch loop of `Helper::list` (`src/helper/mod.rs:80-85`): one
`"? <name>"` line per branch; an errored iterator item propagates
(`branch_result?`) and a non-UTF-8 name panics
(`.expect("Branch name is not utf-8")`). -/
def branchLines : List (Except Nat (Option String)) → RRes (List String)
  | [] => .ok []
  | .error e :: _ => .err (.Git2Error e)
  | .ok none :: _ => .panic
  | .ok (some name) :: rest =>
    match branchLines rest with
    | .ok ls => .ok (("? " ++ name) :: ls)
    | .err e => .err e
    | .panic => .panic

/-- Embedding of `Helper::list` (`src/helper/mod.rs:77-103`): the branch lines, then
one `"<target> HEAD"` line.  `head_ref.kind().expect(..)`,
`head_ref.target().unwrap()` and
`head_ref.symbolic_target().expect(..)` are panics. -/
def Helper.list (repo : Repo) : RRes (List String) :=
  match repo.branches with
  | .error e => .err (.Git2Error e)
  | .ok items =>
    match branchLines items with
    | .err e => .err e
    | .panic => .panic
    | .ok refLines =>
      match repo.findReference "HEAD" with
      | .error e => .err (.Git2Error e)
      | .ok headRef =>
        match headRef.kind with
        | none => .panic
        | some .Oid =>
          match headRef.target with
          | none => .panic
          | some t => .ok (refLines ++ [oidToString t ++ " HEAD"])
        | some .Symbolic =>
          match headRef.symbolicTarget with
          | none => .panic
          | some s => .ok (refLines ++ [s ++ " HEAD"])

/-- Embedding of `Helper::push` (`src/helper/mod.rs:106-118`): resolve `src` to its
hash (`target().unwrap()` panics when absent), run the `PushHelper`
traversal, and then hit `unimplemented!()` — the ref update the
source's TODO attributes to the go version's `Tracker.SetRef` is never
performed.  `dest` and `force` are unused by the body. -/
def Helper.push (E : Ext) (repo : Repo) (fuel : Nat) (st : St)
    (src : String) (dest : String) (force : Bool) : QOut × St :=
  match repo.findReference src with
  | .error e => (.done (.err (.Git2Error e)), st)
  | .ok srcRef =>
    match repo.resolve srcRef with
    | .error e => (.done (.err (.Git2Error e)), st)
    | .ok resolved =>
      match resolved.target with
      | none => (.done .panic, st)
      | some srcHash =>
        match PushHelper.push E fuel srcHash st with
        | (.done (.ok _), st1) => (.done .panic, st1)   -- unimplemented!()
        | r => r

/-- The opened Tracker ledger handle. -/
structure Tracker where
  path : String
deriving DecidableEq

/-- Environment of `Helper::new`: `git2::Repository::open_from_env()`,
`env::var`, `fs::create_dir_all`, and the LMDB environment opening that
backs `tracker::Tracker::new`. -/
structure Env where
  openFromEnv : Except Nat Unit
  var : String → Except VarError String
  createDirAll : String → Except Nat Unit
  lmdbOpen : String → Except Nat Unit

/-- Observable effects of `Helper::new`: which environment variables
were read and which directories were created. -/
structure NewSt where
  envReads : List String
  dirsCreated : List String
deriving DecidableEq

/-- Modelled from the spec: `tracker::Tracker::new` lives in
`src/helper/tracker.rs`, which is declared (`mod tracker;`) but absent
from the sources; spec §4.2 says `open(path)` opens or creates the
ledger at `path` and fails with a ledger error on I/O problems.  The
LMDB opening itself is the external `lmdbOpen` capability. -/
def Tracker.new (E : Env) (path : String) : Except Nat Tracker :=
  match E.lmdbOpen path with
  | .error e => .error e
  | .ok _ => .ok { path := path }

/-- The Session Facade value: `Helper { repo, tracker }` (the repo
handle is kept abstract here). -/
structure Helper where
  tracker : Tracker
deriving DecidableEq

/-- Embedding of `Helper::new` (`src/helper/mod.rs:61-75`): open the repository from
the environment, read `GIT_DIR`, append `"/ipgrv"`, create that
directory, and open the Tracker there. -/
def Helper.new (E : Env) (st : NewSt) : Except Error Helper × NewSt :=
  match E.openFromEnv with
  | .error e => (.error (.Git2Error e), st)
  | .ok _ =>
    let st1 : NewSt := { st with envReads := st.envReads ++ ["GIT_DIR"] }
    match E.var "GIT_DIR" with
    | .error e => (.error (.EnvVarError e), st1)
    | .ok gitDir =>
      let dbPath := gitDir ++ "/ipgrv"
      match E.createDirAll dbPath with
      | .error e => (.error (.IoError e), st1)
      | .ok _ =>
        let st2 : NewSt := { st1 with dirsCreated := st1.dirsCreated ++ [dbPath] }
        match Tracker.new E dbPath with
        | .error e => (.error (.LmdbError e), st2)
        | .ok tr => (.ok { tracker := tr }, st2)

/-! ### Spec-side definitions for the canonical payload -/

/-- The ASCII kind name of spec §3 (`CanonicalPayload`): the kind token
without the following space, `none` outside the four known kinds. -/
def kindAsciiName : ObjType → Option (List Nat)
  | .Blob => some [98, 108, 111, 98]            -- "blob"
  | .Tree => some [116, 114, 101, 101]          -- "tree"
  | .Commit => some [99, 111, 109, 109, 105, 116] -- "commit"
  | .Tag => some [116, 97, 103]                 -- "tag"
  | .Any => none

/-- Spec §3 `CanonicalPayload`, following its words: ASCII kind-name,
space, ASCII decimal length of `raw`, a single zero byte, then `raw`. -/
def specCanonicalPayload (name raw : List Nat) : List Nat :=
  name ++ [32] ++ asciiDecimal raw.length ++ [0] ++ raw

/-! ### Helper lemmas -/

theorem digitChar_range (m : Nat) (h : m < 10) :
    48 ≤ (Nat.digitChar m).toNat ∧ (Nat.digitChar m).toNat ≤ 57 := by
  interval_cases m <;> decide

theorem toDigitsCore_range (f : Nat) : ∀ (n : Nat) (ds : List Char),
    (∀ c ∈ ds, 48 ≤ c.toNat ∧ c.toNat ≤ 57) →
    ∀ c ∈ Nat.toDigitsCore 10 f n ds, 48 ≤ c.toNat ∧ c.toNat ≤ 57 := by
  induction f with
  | zero => intro n ds h c hc; exact h c hc
  | succ f ih =>
    intro n ds h c hc
    simp only [Nat.toDigitsCore] at hc
    have hd : ∀ c ∈ Nat.digitChar (n % 10) :: ds, 48 ≤ c.toNat ∧ c.toNat ≤ 57 := by
      intro c' hc'
      rcases List.mem_cons.mp hc' with h' | h'
      · subst h'; exact digitChar_range _ (Nat.mod_lt _ (by omega))
      · exact h c' h'
    by_cases h10 : n / 10 = 0
    · rw [if_pos h10] at hc
      exact hd c hc
    · rw [if_neg h10] at hc
      exact ih (n / 10) _ hd c hc

theorem asciiDecimal_range (n : Nat) : ∀ b ∈ asciiDecimal n, 48 ≤ b ∧ b ≤ 57 := by
  intro b hb
  simp only [asciiDecimal, List.mem_map] at hb
  obtain ⟨c, hc, rfl⟩ := hb
  rw [Nat.toDigits] at hc
  exact toDigitsCore_range (n + 1) n [] (by simp) c hc

/-- Frame fact: `push_object` touches only the `reads` and `submitted` traces. -/
theorem pushObject_frame (E : Ext) (st : St) (oid : Oid) :
    (pushObject E st oid).2.parsed = st.parsed
    ∧ (pushObject E st oid).2.trackerObjects = st.trackerObjects
    ∧ (pushObject E st oid).2.trackerRefs = st.trackerRefs := by
  simp only [pushObject]
  repeat' split
  all_goals simp

/-- Frame fact: `enqueue_links` touches only the `parsed` trace of the state. -/
theorem enqueueLinks_state (E : Ext) (st : St) (q : List Oid) (b : List Nat) :
    (enqueueLinks E st q b).2.2 = { st with parsed := st.parsed ++ [b] } := by
  simp only [enqueueLinks]
  split <;> rfl

/-- The `parsed` trace only ever grows along the queue-draining loop. -/
theorem pushQueueFuel_parsed_mono (E : Ext) :
    ∀ (n : Nat) (q : List Oid) (st : St),
    ∃ t, (pushQueueFuel E n q st).2.parsed = st.parsed ++ t := by
  intro n
  induction n with
  | zero => intro q st; exact ⟨[], by simp [pushQueueFuel]⟩
  | succ n ih =>
    intro q st
    cases q with
    | nil => exact ⟨[], by simp [pushQueueFuel]⟩
    | cons oid rest =>
      have hfr := pushObject_frame E st oid
      rcases hpo : pushObject E st oid with ⟨r, st1⟩
      rw [hpo] at hfr
      have hp1 : st1.parsed = st.parsed := hfr.1
      cases r with
      | ok objBytes =>
        have hst2 := enqueueLinks_state E st1 rest objBytes
        rcases hel : enqueueLinks E st1 rest objBytes with ⟨er, q2, st2⟩
        rw [hel] at hst2
        have hp2 : st2.parsed = st1.parsed ++ [objBytes] := congrArg St.parsed hst2
        cases er with
        | ok u =>
          obtain ⟨t, ht⟩ := ih q2 st2
          refine ⟨[objBytes] ++ t, ?_⟩
          simp only [pushQueueFuel, hpo, hel, ht, hp2, hp1]
          simp
        | error e =>
          refine ⟨[objBytes], ?_⟩
          simp only [pushQueueFuel, hpo, hel]
          rw [hp2, hp1]
      | err e => exact ⟨[], by simp [pushQueueFuel, hpo, hp1]⟩
      | panic => exact ⟨[], by simp [pushQueueFuel, hpo, hp1]⟩

/-- Shape of a successful-read `push_object` run: the framed payload is
built, submitted, and (when the store accepts it) returned. -/
theorem pushObject_eq_of (E : Ext) (st : St) (oid : Oid) (kind : ObjType)
    (raw nm : List Nat)
    (hodb : E.odb = .ok ()) (hread : E.odbRead oid = .ok (kind, raw))
    (hname : kindAsciiName kind = some nm)
    (hshell : E.newLocalShell = .ok ()) :
    pushObject E st oid =
      ((match E.dagPut (specCanonicalPayload nm raw) "raw" "git" with
        | .error e => .err (.ApiError e)
        | .ok _ => .ok (specCanonicalPayload nm raw)),
       { st with reads := st.reads ++ [oid],
                 submitted := st.submitted ++ [specCanonicalPayload nm raw] }) := by
  cases kind
  case Any => exact Option.noConfusion hname
  all_goals
    simp only [kindAsciiName] at hname
    injection hname with hname
    subst hname
    simp only [pushObject, kindToken, hodb, hread, hshell, specCanonicalPayload,
      List.cons_append, List.nil_append]
    split <;> simp [*]

/-! ### Claim C3 -/

/-- C3: for every native object whose kind is one of Blob, Tree, Commit
or Tag, the payload built by `push_object` is exactly the ASCII kind
name, a single space, the ASCII decimal length of the raw bytes (digit
bytes only), a single zero byte, then the raw bytes verbatim; those
exact bytes are appended to the store-submission trace, returned to the
caller when the store accepts them, and are the exact bytes the
queue-draining loop hands to `ipld_git::parse_object` for link
extraction. -/
theorem C3_canonical_payload (E : Ext) (st : St) (oid : Oid) (kind : ObjType)
    (raw nm : List Nat)
    (hodb : E.odb = .ok ()) (hread : E.odbRead oid = .ok (kind, raw))
    (hname : kindAsciiName kind = some nm)
    (hshell : E.newLocalShell = .ok ()) :
    (pushObject E st oid).2 =
      { st with reads := st.reads ++ [oid],
                submitted := st.submitted ++ [specCanonicalPayload nm raw] }
    ∧ (∀ cid, E.dagPut (specCanonicalPayload nm raw) "raw" "git" = .ok cid →
        (pushObject E st oid).1 = .ok (specCanonicalPayload nm raw))
    ∧ (∀ b ∈ asciiDecimal raw.length, 48 ≤ b ∧ b ≤ 57)
    ∧ (∀ (n : Nat) (q : List Oid) (cid : String),
        E.dagPut (specCanonicalPayload nm raw) "raw" "git" = .ok cid →
        ((pushQueueFuel E (n + 1) (oid :: q) st).2.parsed).take (st.parsed.length + 1)
          = st.parsed ++ [specCanonicalPayload nm raw]) := by
  have hpo := pushObject_eq_of E st oid kind raw nm hodb hread hname hshell
  refine ⟨by rw [hpo], ?_, asciiDecimal_range _, ?_⟩
  · intro cid hdp
    rw [hpo, hdp]
  · intro n q cid hdp
    have hpo2 : pushObject E st oid =
        (.ok (specCanonicalPayload nm raw),
         { st with reads := st.reads ++ [oid],
                   submitted := st.submitted ++ [specCanonicalPayload nm raw] }) := by
      rw [hpo, hdp]
    have hel := enqueueLinks_state E
      { st with reads := st.reads ++ [oid],
                submitted := st.submitted ++ [specCanonicalPayload nm raw] }
      q (specCanonicalPayload nm raw)
    rcases helq : enqueueLinks E
      { st with reads := st.reads ++ [oid],
                submitted := st.submitted ++ [specCanonicalPayload nm raw] }
      q (specCanonicalPayload nm raw) with ⟨er, q2, st2⟩
    rw [helq] at hel
    have hp2 : st2.parsed = st.parsed ++ [specCanonicalPayload nm raw] :=
      congrArg St.parsed hel
    have hlen : (st.parsed ++ [specCanonicalPayload nm raw]).length
        = st.parsed.length + 1 := by simp
    cases er with
    | error e =>
      simp only [pushQueueFuel, hpo2, helq]
      rw [hp2, ← hlen, List.take_length]
    | ok u =>
      simp only [pushQueueFuel, hpo2, helq]
      obtain ⟨t, ht⟩ := pushQueueFuel_parsed_mono E n q2 st2
      rw [ht, hp2]
      exact List.take_left' hlen

/-- A concrete store-accepting environment for the C3 witness: a commit
object with raw bytes `[10, 20]`. -/
def E3w : Ext :=
  { odb := .ok (), odbRead := fun _ => .ok (.Commit, [10, 20]),
    newLocalShell := .ok (), dagPut := fun _ _ _ => .ok "cid",
    parseObject := fun _ => .ok [], multihashDecode := fun b => .ok b,
    oidFromBytes := fun b => .ok b }

/-- Witness for C3 at a concrete commit: payload `"commit 2\x00" ++ raw`. -/
theorem C3_canonical_payload_witness :
    (pushObject E3w St0 [1]).2 =
      { St0 with reads := [[1]],
                 submitted := [[99, 111, 109, 109, 105, 116, 32, 50, 0, 10, 20]] }
    ∧ (pushObject E3w St0 [1]).1 = .ok [99, 111, 109, 109, 105, 116, 32, 50, 0, 10, 20] := by
  have h := C3_canonical_payload E3w St0 [1] .Commit [10, 20]
    [99, 111, 109, 109, 105, 116] rfl rfl rfl rfl
  exact ⟨h.1.trans (by decide), (h.2.1 "cid" rfl).trans (by decide)⟩

/-! ### Claim C4 -/

/-- C4: if the store submission (`dag_put`) fails for the object at the
front of the queue, the whole traversal aborts at once: the loop result
is that store error, and the final traces show that no further object
was read, encoded, or submitted — only the failing object's read and
its single submission attempt were added. -/
theorem C4_store_failure_aborts (E : Ext) (st : St) (oid : Oid) (kind : ObjType)
    (raw nm : List Nat) (q : List Oid) (n : Nat) (e : Nat)
    (hodb : E.odb = .ok ()) (hread : E.odbRead oid = .ok (kind, raw))
    (hname : kindAsciiName kind = some nm)
    (hshell : E.newLocalShell = .ok ())
    (hfail : E.dagPut (specCanonicalPayload nm raw) "raw" "git" = .error e) :
    pushQueueFuel E (n + 1) (oid :: q) st =
      (.done (.err (.ApiError e)),
       { st with reads := st.reads ++ [oid],
                 submitted := st.submitted ++ [specCanonicalPayload nm raw] }) := by
  have hpo := pushObject_eq_of E st oid kind raw nm hodb hread hname hshell
  rw [hfail] at hpo
  simp only [pushQueueFuel, hpo]

/-- A concrete environment whose store rejects every submission. -/
def E4w : Ext :=
  { odb := .ok (), odbRead := fun _ => .ok (.Blob, []),
    newLocalShell := .ok (), dagPut := fun _ _ _ => .error 7,
    parseObject := fun _ => .ok [], multihashDecode := fun b => .ok b,
    oidFromBytes := fun b => .ok b }

/-- Witness for C4: a blob whose submission fails with store error 7;
the queued identifier `[9]` behind it is never read or submitted. -/
theorem C4_store_failure_aborts_witness :
    pushQueueFuel E4w 1 [[2], [9]] St0 =
      (.done (.err (.ApiError 7)),
       { St0 with reads := [[2]], submitted := [[98, 108, 111, 98, 32, 48, 0]] }) :=
  (C4_store_failure_aborts E4w St0 [2] .Blob [] [98, 108, 111, 98] [[9]] 0 7
    rfl rfl rfl rfl rfl).trans (by decide)

/-! ### Claim C6 -/

/-- A concrete environment whose object database returns an object of
kind `Any` (outside the four known kinds). -/
def E6 : Ext :=
  { odb := .ok (), odbRead := fun _ => .ok (.Any, [5]),
    newLocalShell := .ok (), dagPut := fun _ _ _ => .ok "",
    parseObject := fun _ => .ok [], multihashDecode := fun b => .ok b,
    oidFromBytes := fun b => .ok b }

/-- C6 counterexample: encoding an object of kind `Any` does not return
an encode error to the caller — `push_object` hits the
`_ => unimplemented!()` arm and the process aborts (`RRes.panic`, which
is a different constructor from every `RRes.err e`).  The helper's
`Error` enum has no encode-error case at all. -/
theorem C6_counterexample :
    pushObject E6 St0 [1] = (.panic, { St0 with reads := [[1]] }) := by
  decide

/-- C6 amended: encoding a native object whose kind is outside the four
known kinds aborts the process via `unimplemented!()` (after the object
was already read), rather than returning an encode error or
succeeding. -/
theorem C6_amended_unknown_kind_panics (E : Ext) (st : St) (oid : Oid) (raw : List Nat)
    (hodb : E.odb = .ok ()) (hread : E.odbRead oid = .ok (.Any, raw)) :
    pushObject E st oid = (.panic, { st with reads := st.reads ++ [oid] }) := by
  simp only [pushObject, kindToken, hodb, hread]

/-- Witness for the amended C6 at a concrete environment. -/
theorem C6_amended_unknown_kind_panics_witness :
    pushObject E6 St0 [3] = (.panic, { St0 with reads := [[3]] }) :=
  (C6_amended_unknown_kind_panics E6 St0 [3] [5] rfl rfl).trans (by decide)

/-! ### Claim C1 -/

/-- A concrete object graph for C1: `[1]` is a tree whose payload
yields two links, both to the blob `[2]`; every other identifier is an
empty blob. -/
def E1 : Ext :=
  { odb := .ok (),
    odbRead := fun o => if o = [1] then .ok (.Tree, [7]) else .ok (.Blob, []),
    newLocalShell := .ok (), dagPut := fun _ _ _ => .ok "cid",
    parseObject := fun p =>
      if p = [116, 114, 101, 101, 32, 49, 0, 7]
      then .ok [{ cid := { hash := [2] } }, { cid := { hash := [2] } }]
      else .ok [],
    multihashDecode := fun b => .ok b, oidFromBytes := fun b => .ok b }

/-- Starting state for C1: the Tracker already holds a ledger row for
the root identifier `[1]`. -/
def st1 : St := { St0 with trackerObjects := [([1], [99])] }

/-- C1 (code bug): the traversal performs no dedup whatsoever.  Pushing
the root `[1]`, whose ledger row is already in the Tracker, still reads
it from the odb, re-encodes it, re-submits it, and re-enqueues its
links (`reads`/`submitted` begin with `[1]`'s entries), and the blob
`[2]`, linked twice, is dequeued, read, submitted and parsed twice.
The `// TODO: check tracker for src_hash` comments in `push_queue` are
not implemented. -/
theorem C1_no_dedup_counterexample_run :
    pushQueueFuel E1 4 [[1]] st1 =
      (.done (.ok ()),
       { reads := [[1], [2], [2]],
         submitted := [[116, 114, 101, 101, 32, 49, 0, 7],
                       [98, 108, 111, 98, 32, 48, 0],
                       [98, 108, 111, 98, 32, 48, 0]],
         parsed := [[116, 114, 101, 101, 32, 49, 0, 7],
                    [98, 108, 111, 98, 32, 48, 0],
                    [98, 108, 111, 98, 32, 48, 0]],
         trackerObjects := [([1], [99])], trackerRefs := [] }) := by
  decide

/-! ### Claim C2 -/

/-- The reference `Helper::push` resolves `src` to: a direct reference
with target `[1]`. -/
def refC : Reference := { kind := some .Oid, target := some [1], symbolicTarget := none }

/-- A repository in which every reference lookup yields `refC`. -/
def repoC : Repo :=
  { branches := .ok [], findReference := fun _ => .ok refC, resolve := fun r => .ok r }

/-- Ext for C2: `[1]` is an empty blob with no links and the store
accepts everything, so the traversal drains successfully. -/
def E2c : Ext :=
  { odb := .ok (), odbRead := fun _ => .ok (.Blob, []),
    newLocalShell := .ok (), dagPut := fun _ _ _ => .ok "cid",
    parseObject := fun _ => .ok [], multihashDecode := fun b => .ok b,
    oidFromBytes := fun b => .ok b }

/-- Starting state for C2: `destRef` is currently mapped to the old
identifier `[5]` in the Tracker. -/
def st2c : St := { St0 with trackerRefs := [("refs/heads/master", [5])] }

/-- C2 (code bug): after the queue is fully drained without error,
`Helper::push` does not inspect the Tracker's `destRef` mapping, does
not call `setRef`, and does not return success: it hits
`unimplemented!()` and the process aborts, leaving the ref relation at
its old value `[5]` (the source's TODO notes that the go version
invokes `Tracker.SetRef` at this point). -/
theorem C2_push_unimplemented_run :
    Helper.push E2c repoC 2 st2c "refs/heads/master" "refs/heads/master" false =
      (.done .panic,
       { reads := [[1]], submitted := [[98, 108, 111, 98, 32, 48, 0]],
         parsed := [[98, 108, 111, 98, 32, 48, 0]],
         trackerObjects := [], trackerRefs := [("refs/heads/master", [5])] }) := by
  decide

/-! ### Claim C10 -/

/-- The queue-draining loop never touches the Tracker relations. -/
theorem pushQueueFuel_tracker (E : Ext) :
    ∀ (n : Nat) (q : List Oid) (st : St),
    (pushQueueFuel E n q st).2.trackerObjects = st.trackerObjects
    ∧ (pushQueueFuel E n q st).2.trackerRefs = st.trackerRefs := by
  intro n
  induction n with
  | zero => intro q st; exact ⟨rfl, rfl⟩
  | succ n ih =>
    intro q st
    cases q with
    | nil => exact ⟨rfl, rfl⟩
    | cons oid rest =>
      have hfr := pushObject_frame E st oid
      rcases hpo : pushObject E st oid with ⟨r, st1⟩
      rw [hpo] at hfr
      have h1o : st1.trackerObjects = st.trackerObjects := hfr.2.1
      have h1r : st1.trackerRefs = st.trackerRefs := hfr.2.2
      cases r with
      | ok objBytes =>
        have hst2 := enqueueLinks_state E st1 rest objBytes
        rcases hel : enqueueLinks E st1 rest objBytes with ⟨er, q2, st2⟩
        rw [hel] at hst2
        have hst2' : st2 = { st1 with parsed := st1.parsed ++ [objBytes] } := hst2
        have h2o : st2.trackerObjects = st1.trackerObjects := by rw [hst2']
        have h2r : st2.trackerRefs = st1.trackerRefs := by rw [hst2']
        cases er with
        | ok u =>
          have hrec := ih q2 st2
          constructor
          · simp only [pushQueueFuel, hpo, hel]; rw [hrec.1, h2o, h1o]
          · simp only [pushQueueFuel, hpo, hel]; rw [hrec.2, h2r, h1r]
        | error e =>
          constructor
          · simp only [pushQueueFuel, hpo, hel]; rw [h2o, h1o]
          · simp only [pushQueueFuel, hpo, hel]; rw [h2r, h1r]
      | err e =>
        exact ⟨by simp only [pushQueueFuel, hpo]; exact h1o,
               by simp only [pushQueueFuel, hpo]; exact h1r⟩
      | panic =>
        exact ⟨by simp only [pushQueueFuel, hpo]; exact h1o,
               by simp only [pushQueueFuel, hpo]; exact h1r⟩

/-- C10: for every input, `Helper::push` never reports success and
never mutates the Tracker: whatever the repository, the external world,
the fuel and the starting state, the outcome is an error, a panic, or
still-running (never `ok`), and both Tracker relations are exactly the
starting ones. -/
theorem C10_push_never_succeeds_never_mutates (E : Ext) (repo : Repo) (fuel : Nat)
    (st : St) (src dest : String) (force : Bool) :
    (Helper.push E repo fuel st src dest force).1 ≠ .done (.ok ())
    ∧ (Helper.push E repo fuel st src dest force).2.trackerObjects = st.trackerObjects
    ∧ (Helper.push E repo fuel st src dest force).2.trackerRefs = st.trackerRefs := by
  simp only [Helper.push]
  rcases hfind : repo.findReference src with e | srcRef
  · simp [hfind]
  · simp only [hfind]
    rcases hres : repo.resolve srcRef with e | resolved
    · simp [hres]
    · simp only [hres]
      rcases htgt : resolved.target with _ | srcHash
      · simp [htgt]
      · simp only [htgt]
        have htr := pushQueueFuel_tracker E fuel [srcHash] st
        rcases hq : pushQueueFuel E fuel [srcHash] st with ⟨o, stF⟩
        rw [hq] at htr
        have hq' : PushHelper.push E fuel srcHash st = (o, stF) := hq
        simp only [hq']
        cases o with
        | done r =>
          cases r with
          | ok u => exact ⟨by simp, htr.1, htr.2⟩
          | err e => exact ⟨by simp, htr.1, htr.2⟩
          | panic => exact ⟨by simp, htr.1, htr.2⟩
        | fuelOut q => exact ⟨by simp, htr.1, htr.2⟩

/-! ### Claim C7 -/

/-- When every branch iterator item succeeds with a UTF-8 name, the
branch loop yields one `"? <name>"` line per branch, in order. -/
theorem branchLines_all_ok (names : List String) :
    branchLines (names.map fun n => .ok (some n)) =
      .ok (names.map fun n => "? " ++ n) := by
  induction names with
  | nil => rfl
  | cons n ns ih => simp [branchLines, ih]

/-- C7: on a repository whose local-branch enumeration succeeds with
UTF-8 names, `list` returns one `"? <fullRefName>"` line per branch in
enumeration order followed by exactly one final HEAD line, which is
`"<targetOid> HEAD"` when HEAD is a direct identifier and
`"<symbolicTargetRefName> HEAD"` when HEAD is symbolic. -/
theorem C7_list_lines (repo : Repo) (names : List String) (h : Reference)
    (hb : repo.branches = .ok (names.map fun n => .ok (some n)))
    (hh : repo.findReference "HEAD" = .ok h) :
    (∀ t, h.kind = some .Oid → h.target = some t →
      Helper.list repo =
        .ok ((names.map fun n => "? " ++ n) ++ [oidToString t ++ " HEAD"]))
    ∧ (∀ s, h.kind = some .Symbolic → h.symbolicTarget = some s →
      Helper.list repo =
        .ok ((names.map fun n => "? " ++ n) ++ [s ++ " HEAD"])) := by
  constructor
  · intro t hk ht
    simp only [Helper.list, hb, branchLines_all_ok, hh, hk, ht]
  · intro s hk hs
    simp only [Helper.list, hb, branchLines_all_ok, hh, hk, hs]

/-- HEAD symbolic to `refs/heads/main`. -/
def headW : Reference :=
  { kind := some .Symbolic, target := none, symbolicTarget := some "refs/heads/main" }

/-- The spec's scenario repository: local branches `main`, `dev`, HEAD
symbolic to `main`. -/
def repoW : Repo :=
  { branches := .ok [.ok (some "refs/heads/main"), .ok (some "refs/heads/dev")],
    findReference := fun _ => .ok headW, resolve := fun r => .ok r }

/-- Witness for C7: the spec's `list()` scenario. -/
theorem C7_list_lines_witness :
    Helper.list repoW =
      .ok ["? refs/heads/main", "? refs/heads/dev", "refs/heads/main HEAD"] := by
  have h := C7_list_lines repoW ["refs/heads/main", "refs/heads/dev"] headW rfl rfl
  exact (h.2 "refs/heads/main" rfl rfl).trans (by decide)

/-! ### Claim C8 -/

/-- A repository with a single branch whose name is not valid UTF-8. -/
def repoX : Repo :=
  { branches := .ok [.ok none],
    findReference := fun _ => .ok headW, resolve := fun r => .ok r }

/-- C8 counterexample: on a branch name that is not valid UTF-8,
`list` does not return a repository-access error to its caller — the
`.expect("Branch name is not utf-8")` panics, aborting the process
(`RRes.panic`, which is a different constructor from every
`RRes.err e`). -/
theorem C8_counterexample : Helper.list repoX = .panic := by
  decide

/-- The branch loop panics as soon as it meets a non-UTF-8 name. -/
theorem branchLines_panic (names : List String)
    (post : List (Except Nat (Option String))) :
    branchLines ((names.map fun n => .ok (some n)) ++ .ok none :: post) = .panic := by
  induction names with
  | nil => rfl
  | cons n ns ih => simp [branchLines, ih]

/-- C8 amended: when HEAD is unreadable, `list` returns the
repository-access error to its caller; but when a branch name, or
HEAD's symbolic target, is not valid UTF-8, `list` panics (process
abort via `expect`) instead of returning an error; in no case are
entries silently omitted. -/
theorem C8_amended_errors_and_panics (repo : Repo) (names : List String)
    (e : Nat) (post : List (Except Nat (Option String))) :
    (repo.branches = .ok (names.map fun n => .ok (some n)) →
      repo.findReference "HEAD" = .error e →
      Helper.list repo = .err (.Git2Error e))
    ∧ (repo.branches = .ok ((names.map fun n => .ok (some n)) ++ .ok none :: post) →
      Helper.list repo = .panic)
    ∧ (∀ h, repo.branches = .ok (names.map fun n => .ok (some n)) →
      repo.findReference "HEAD" = .ok h → h.kind = some .Symbolic →
      h.symbolicTarget = none → Helper.list repo = .panic) := by
  refine ⟨?_, ?_, ?_⟩
  · intro hb hh
    simp only [Helper.list, hb, branchLines_all_ok, hh]
  · intro hb
    simp only [Helper.list, hb, branchLines_panic]
  · intro h hb hh hk hs
    simp only [Helper.list, hb, branchLines_all_ok, hh, hk, hs]

/-- A repository whose HEAD lookup fails with error 7. -/
def repoY : Repo :=
  { branches := .ok [.ok (some "refs/heads/main")],
    findReference := fun _ => .error 7, resolve := fun r => .ok r }

/-- Witness for the amended C8: unreadable HEAD is returned as a
repository-access error. -/
theorem C8_amended_errors_and_panics_witness :
    Helper.list repoY = .err (.Git2Error 7) :=
  (C8_amended_errors_and_panics repoY ["refs/heads/main"] 7 []).1 rfl rfl

/-! ### Claim C9 -/

/-- C9: `Helper::new` reads exactly the one environment variable
`GIT_DIR` (the env-read trace grows by `["GIT_DIR"]` alone); if it is
absent the construction fails with the configuration error
`EnvVarError`; otherwise it creates the directory `<GIT_DIR>/ipgrv`
and opens the Tracker ledger at exactly that path. -/
theorem C9_new_gitdir_ipgrv (E : Env) (st : NewSt) (ve : VarError) (d : String)
    (hopen : E.openFromEnv = .ok ()) :
    (E.var "GIT_DIR" = .error ve →
      Helper.new E st = (.error (.EnvVarError ve),
        { st with envReads := st.envReads ++ ["GIT_DIR"] }))
    ∧ (E.var "GIT_DIR" = .ok d →
      E.createDirAll (d ++ "/ipgrv") = .ok () →
      E.lmdbOpen (d ++ "/ipgrv") = .ok () →
      Helper.new E st = (.ok { tracker := { path := d ++ "/ipgrv" } },
        { envReads := st.envReads ++ ["GIT_DIR"],
          dirsCreated := st.dirsCreated ++ [d ++ "/ipgrv"] })) := by
  constructor
  · intro hv
    simp only [Helper.new, hopen, hv]
  · intro hv hc hl
    simp only [Helper.new, Tracker.new, hopen, hv, hc, hl]

/-- An environment with `GIT_DIR=/repo/.git` set and working I/O. -/
def E9w : Env :=
  { openFromEnv := .ok (),
    var := fun v => if v = "GIT_DIR" then .ok "/repo/.git" else .error .NotPresent,
    createDirAll := fun _ => .ok (), lmdbOpen := fun _ => .ok () }

/-- Witness for C9 at a concrete environment. -/
theorem C9_new_gitdir_ipgrv_witness :
    Helper.new E9w { envReads := [], dirsCreated := [] } =
      (.ok { tracker := { path := "/repo/.git/ipgrv" } },
       { envReads := ["GIT_DIR"], dirsCreated := ["/repo/.git/ipgrv"] }) :=
  ((C9_new_gitdir_ipgrv E9w { envReads := [], dirsCreated := [] } .NotPresent
    "/repo/.git" rfl).2 rfl rfl rfl).trans (by rfl)

/-! ### Claim C5 -/

/-- The push traversal starting at queue `q` in state `st` terminates:
for some fuel the queue-draining loop finishes (empty queue, error, or
panic) instead of still running. -/
def pushTerminates (E : Ext) (q : List Oid) (st : St) : Prop :=
  ∃ n, ((pushQueueFuel E n q st).1).isFuelOut = false

/-- The identifiers one fully-successful loop iteration on `x` appends
to the queue (`none` when the iteration ends the loop instead, by
error or panic). -/
def stepLinksO (E : Ext) (x : Oid) : Option (List Oid) :=
  match (pushObject E St0 x).1 with
  | .ok bytes =>
    match E.parseObject bytes with
    | .error _ => none
    | .ok links =>
      match enqueueLinksGo E [] links with
      | (.ok _, ls) => some ls
      | (.error _, _) => none
  | .err _ => none
  | .panic => none

/-- Child relation: `c` is a link-child of `p` in the object graph induced by `E`. -/
def childRel (E : Ext) (c p : Oid) : Prop :=
  ∃ ls, stepLinksO E p = some ls ∧ c ∈ ls

/-- The `RRes` component of `push_object` does not depend on the
starting trace state. -/
theorem pushObject_fst_st (E : Ext) (x : Oid) (st st' : St) :
    (pushObject E st x).1 = (pushObject E st' x).1 := by
  cases hodb : E.odb with
  | error e => simp [pushObject, hodb]
  | ok u =>
    cases hread : E.odbRead x with
    | error e => simp [pushObject, hodb, hread]
    | ok kr =>
      rcases kr with ⟨kind, raw⟩
      cases htok : kindToken kind with
      | none => simp [pushObject, hodb, hread, htok]
      | some t =>
        cases hsh : E.newLocalShell with
        | error e => simp [pushObject, hodb, hread, htok, hsh]
        | ok v =>
          cases hdp : E.dagPut (t ++ (asciiDecimal raw.length ++ 0 :: raw)) "raw" "git" with
          | error e => simp [pushObject, hodb, hread, htok, hsh, hdp]
          | ok a => simp [pushObject, hodb, hread, htok, hsh, hdp]

/-- The loop of `enqueue_links` only appends: running it from queue `q` is
running it from the empty queue and appending the result to `q`. -/
theorem enqueueLinksGo_shift (E : Ext) (L : List Link) :
    ∀ q, enqueueLinksGo E q L =
      ((enqueueLinksGo E [] L).1, q ++ (enqueueLinksGo E [] L).2) := by
  induction L with
  | nil => intro q; simp [enqueueLinksGo]
  | cons l ls ih =>
    intro q
    cases hmd : E.multihashDecode l.cid.hash with
    | error e => simp [enqueueLinksGo, hmd]
    | ok digest =>
      cases hob : E.oidFromBytes digest with
      | error e => simp [enqueueLinksGo, hmd, hob]
      | ok oid =>
        simp only [enqueueLinksGo, hmd, hob]
        rw [ih (q ++ [oid]), ih ([] ++ [oid])]
        simp

/-- Measure for the traversal when the link relation is well-founded:
the total number of loop iterations the unfolding of `x` can cost. -/
def steps (E : Ext) (hwf : WellFounded (childRel E)) : Oid → Nat :=
  hwf.fix fun x ih =>
    match h : stepLinksO E x with
    | none => 1
    | some ls => 1 + (ls.attach.map fun c => ih c.1 ⟨ls, h, c.2⟩).sum

theorem steps_eq (E : Ext) (hwf : WellFounded (childRel E)) (x : Oid) :
    steps E hwf x =
      match stepLinksO E x with
      | none => 1
      | some ls => 1 + (ls.map (steps E hwf)).sum := by
  unfold steps
  rw [WellFounded.fix_eq]
  split
  · rename_i h
    conv_rhs => rw [h]
  · rename_i ls h
    conv_rhs => rw [h]
    show 1 + (ls.attach.map fun c => steps E hwf c.1).sum
        = 1 + (ls.map (steps E hwf)).sum
    rw [List.attach_map_val ls]

theorem steps_pos (E : Ext) (hwf : WellFounded (childRel E)) (x : Oid) :
    1 ≤ steps E hwf x := by
  rw [steps_eq]
  cases stepLinksO E x <;> simp

theorem steps_eq_some (E : Ext) (hwf : WellFounded (childRel E)) (x : Oid)
    (ls : List Oid) (h : stepLinksO E x = some ls) :
    steps E hwf x = 1 + (ls.map (steps E hwf)).sum := by
  rw [steps_eq, h]

/-- With fuel one more than the total measure of the queue, the loop
finishes. -/
theorem pushQueueFuel_term (E : Ext) (hwf : WellFounded (childRel E)) :
    ∀ (n : Nat) (q : List Oid) (st : St),
    (q.map (steps E hwf)).sum ≤ n →
    ((pushQueueFuel E (n + 1) q st).1).isFuelOut = false := by
  intro n
  induction n with
  | zero =>
    intro q st hle
    cases q with
    | nil => rfl
    | cons x rest =>
      exfalso
      have hp := steps_pos E hwf x
      simp only [List.map_cons, List.sum_cons] at hle
      omega
  | succ n ih =>
    intro q st hle
    cases q with
    | nil => rfl
    | cons x rest =>
      rcases hpo : pushObject E st x with ⟨r, st1⟩
      cases r with
      | err e => simp [pushQueueFuel, hpo, QOut.isFuelOut]
      | panic => simp [pushQueueFuel, hpo, QOut.isFuelOut]
      | ok bytes =>
        have hfst : (pushObject E St0 x).1 = .ok bytes := by
          rw [pushObject_fst_st E x St0 st, hpo]
        cases hpa : E.parseObject bytes with
        | error e =>
          simp [pushQueueFuel, hpo, enqueueLinks, hpa, QOut.isFuelOut]
        | ok links =>
          rcases hgo : enqueueLinksGo E [] links with ⟨gr, ls⟩
          have hshift := enqueueLinksGo_shift E links rest
          rw [hgo] at hshift
          cases gr with
          | error e =>
            simp [pushQueueFuel, hpo, enqueueLinks, hpa, hshift, QOut.isFuelOut]
          | ok v =>
            have hstep : stepLinksO E x = some ls := by
              simp [stepLinksO, hfst, hpa, hgo]
            have hred : (pushQueueFuel E (n + 1 + 1) (x :: rest) st).1
                = (pushQueueFuel E (n + 1) (rest ++ ls)
                    ((enqueueLinks E st1 rest bytes).2.2)).1 := by
              simp [pushQueueFuel, hpo, enqueueLinks, hpa, hshift]
            rw [hred]
            apply ih
            have hx := steps_eq_some E hwf x ls hstep
            simp only [List.map_cons, List.sum_cons, hx] at hle
            simp only [List.map_append, List.sum_append]
            omega

/-- C5 amended: on every object graph whose link relation is
well-founded (in particular every acyclic graph, converging paths
included) the push traversal terminates, from any starting queue and
state: the queue-draining loop eventually empties the queue or stops
with an error or panic. -/
theorem C5_amended_terminates_on_acyclic (E : Ext)
    (hwf : WellFounded (childRel E)) (q : List Oid) (st : St) :
    pushTerminates E q st :=
  ⟨(q.map (steps E hwf)).sum + 1,
    pushQueueFuel_term E hwf ((q.map (steps E hwf)).sum) q st (Nat.le_refl _)⟩

/-- A cyclic object graph: `[1]` is a commit whose parsed payload links
back to `[1]` itself, and the store accepts everything. -/
def E5 : Ext :=
  { odb := .ok (), odbRead := fun _ => .ok (.Commit, []),
    newLocalShell := .ok (), dagPut := fun _ _ _ => .ok "cid",
    parseObject := fun _ => .ok [{ cid := { hash := [1] } }],
    multihashDecode := fun b => .ok b, oidFromBytes := fun b => .ok b }

/-- On the cyclic graph the loop re-enqueues `[1]` forever: whatever
the fuel, the loop is still running with queue `[[1]]`. -/
theorem pushQueueFuel_E5_loops : ∀ (n : Nat) (st : St),
    (pushQueueFuel E5 n [[1]] st).1 = .fuelOut [[1]] := by
  intro n
  induction n with
  | zero => intro st; rfl
  | succ n ih =>
    intro st
    have h1 : pushQueueFuel E5 (n + 1) [[1]] st =
        pushQueueFuel E5 n [[1]]
          { st with reads := st.reads ++ [[1]],
                    submitted := st.submitted ++ [[99, 111, 109, 109, 105, 116, 32, 48, 0]],
                    parsed := st.parsed ++ [[99, 111, 109, 109, 105, 116, 32, 48, 0]] } := rfl
    rw [h1]
    exact ih _

/-- C5 counterexample: the claim quantifies over every object graph
shape, but on the cyclic graph `E5` (a shape the dedup of spec I2 was
meant to cut off) the traversal of `[1]` never terminates: no fuel
makes the queue-draining loop finish. -/
theorem C5_counterexample_cycle : ¬ pushTerminates E5 [[1]] St0 := by
  rintro ⟨n, hn⟩
  rw [pushQueueFuel_E5_loops n St0] at hn
  simp [QOut.isFuelOut] at hn

/-- An environment whose object database always fails: its link
relation is empty, hence well-founded. -/
def E5w : Ext :=
  { odb := .error 3, odbRead := fun _ => .error 3, newLocalShell := .ok (),
    dagPut := fun _ _ _ => .ok "", parseObject := fun _ => .ok [],
    multihashDecode := fun b => .ok b, oidFromBytes := fun b => .ok b }

/-- Witness for the amended C5 at a concrete well-founded graph. -/
theorem C5_amended_terminates_on_acyclic_witness : pushTerminates E5w [[1]] St0 :=
  C5_amended_terminates_on_acyclic E5w
    ⟨fun x => Acc.intro x fun y hy =>
      absurd hy (by simp [childRel, stepLinksO, pushObject, E5w])⟩
    [[1]] St0

end Ipgrv
